import Mathlib

/-!
Verification of the image pipeline of the Meme Studio front-end.

The development shallowly embeds the two core transforms of
`src/services/imageUtils.ts` (`sliceMemeGrid`, `processImage`), the archive
layout of `downloadBatch`, the metadata fallback of
`src/services/geminiService.ts` (`generateMemeMetadata`), and the batch
orchestration of `src/App.tsx` (`handleGenerate`).

Modelling conventions:
- A decoded bitmap (`RasterImage`) is a width, a height and a pixel map;
  pixels are addressed by integer coordinates and carry an opaque colour
  code (`Nat`).  Decoding itself is host behaviour, so decoded inputs are
  passed as `Option RasterImage` (`none` models a decode failure, which in
  the source fires `img.onerror`).
- Canvas size assignment (`canvas.width = cellWidth`) truncates the
  floating-point cell size to an integer, which for `width / 6` and
  `height / 4` coincides with natural-number (floor) division: the
  fractional part of an exact sixth or quarter is never close enough to 1
  for double rounding to cross an integer boundary.
- The rounded-corner clip path is built from four `quadraticCurveTo` calls
  whose control points sit on the cell corners; a point of the corner
  square at offset `(x, y)` from its corner is strictly outside that
  Bezier arc iff `sqrt (x/r) + sqrt (y/r) < 1`, i.e. iff
  `x + y < r` and `4*x*y < (r - x - y)^2`.  A slice pixel `(i, j)` is
  sampled at its centre `(i + 1/2, j + 1/2)` and the radius is
  `0.05 * min cellWidth cellHeight`; multiplying every length by 40 clears
  all denominators (`x ↦ 20*(2*i+1)`, `r ↦ 2 * min cellWidth cellHeight`),
  so the whole test is exact integer arithmetic.
- The cover-fit geometry of `processImage` is carried out in `ℚ`, the
  idealisation of the host double arithmetic used by the source.
-/

/-- A decoded in-memory bitmap: integer dimensions plus pixel data.
Colour values are opaque `Nat` codes. -/
structure RasterImage where
  width : Nat
  height : Nat
  pixel : Nat → Nat → Nat

/-- `const COLS = 6` of `src/services/imageUtils.ts`. -/
def COLS : Nat := 6

/-- `const ROWS = 4` of `src/services/imageUtils.ts`. -/
def ROWS : Nat := 4

/-- `index.toString().padStart(2, '0')`: decimal digits, left-padded with
zeros to length 2. -/
def pad2 (n : Nat) : String :=
  let s := toString n
  if s.length < 2 then "0" ++ s else s

/-- A point of a corner square, at scaled offset `(X, Y)` from the corner
with scaled radius `R` (all lengths of the cell multiplied by 40), lies
strictly outside the quadratic-Bezier corner arc of the clip path built at
lines 119-129 of `src/services/imageUtils.ts`.  Unscaled this is
`0 ≤ x`, `0 ≤ y`, `x + y < r` and `4*x*y < (r - x - y)^2`, the
rationalisation of `sqrt (x/r) + sqrt (y/r) < 1`. -/
def cornerOutside (R X Y : Int) : Bool :=
  0 < R && 0 ≤ X && 0 ≤ Y && X + Y < R && 4 * X * Y < (R - X - Y) * (R - X - Y)

/-- The centre `(i + 1/2, j + 1/2)` of slice pixel `(i, j)` lies inside the
rounded-rectangle clip path of a `cw × ch` cell with corner radius
`borderRadius = Math.min(cellWidth, cellHeight) * 0.05` (line 103 of
`src/services/imageUtils.ts`).  All lengths are scaled by 40 to stay in
exact integer arithmetic: the pixel centre becomes `20*(2*i+1)` and the
radius becomes `40 * (min cw ch) / 20 = 2 * min cw ch`. -/
def insideMask (cw ch i j : Nat) : Bool :=
  let R : Int := 2 * min cw ch
  let X : Int := 20 * (2 * (i : Int) + 1)
  let Y : Int := 20 * (2 * (j : Int) + 1)
  let W : Int := 40 * cw
  let H : Int := 40 * ch
  !(cornerOutside R X Y || cornerOutside R (W - X) Y ||
    cornerOutside R X (H - Y) || cornerOutside R (W - X) (H - Y))

/-- One grid cell result, mirroring the `SlicedImage` record of
`src/types.ts` pushed at lines 166-171 of `src/services/imageUtils.ts`.
The encoded `blob`/`dataUrl` pair is represented by the decoded bitmap it
encodes: dimensions plus a pixel map, where `none` is a fully transparent
pixel of the PNG alpha channel. -/
structure SlicedImage where
  id : String
  fileName : String
  width : Nat
  height : Nat
  pixel : Nat → Nat → Option Nat

/-- One loop body of `sliceMemeGrid` (lines 110-171 of
`src/services/imageUtils.ts`): the slice of cell `(row, col)`.  The canvas
is cleared, clipped to the rounded rectangle, and the source region
starting at `(col * cellWidth, row * cellHeight)` is copied 1:1; pixels
whose centre falls outside the clip path stay transparent (`none`).
The pixel map is exact for composites whose dimensions are multiples of
the grid (integer-sized cells); for fractional cells the host canvas
resamples and the bitmap content is host-dependent (the open question
noted in the design notes of the specification), while the `id`,
`fileName`, `width` and `height` fields are faithful for every size. -/
def mkSlice (img : RasterImage) (cw ch row col : Nat) : SlicedImage :=
  let index := row * COLS + col + 1
  { id := "meme-" ++ toString index
    fileName := "meme_" ++ pad2 index ++ ".png"
    width := cw
    height := ch
    pixel := fun i j =>
      if i < cw ∧ j < ch ∧ insideMask cw ch i j = true then
        some (img.pixel (col * cw + i) (row * ch + j))
      else none }

/-- The nested row/column loop of `sliceMemeGrid` (lines 109-173), rows
outermost: the resulting list is in row-major order. -/
def sliceMemeGridOk (img : RasterImage) : List SlicedImage :=
  let cw := img.width / COLS
  let ch := img.height / ROWS
  ((List.range ROWS).map fun row =>
    (List.range COLS).map fun col => mkSlice img cw ch row col).flatten

/-- `sliceMemeGrid` (lines 85-179 of `src/services/imageUtils.ts`): on a
decode failure (`img.onerror`) the promise is rejected with the message of
line 177 and no slices are produced; on success the 24 slices are
resolved. -/
def sliceMemeGrid (decoded : Option RasterImage) :
    Except String (List SlicedImage) :=
  match decoded with
  | none => Except.error "加载生成的图片失败，无法切片。"
  | some img => Except.ok (sliceMemeGridOk img)

/-- A concrete 4K composite (the 3840×2160 scenario of the specification)
whose pixels all carry colour code 7. -/
def testComposite : RasterImage :=
  { width := 3840, height := 2160, pixel := fun _ _ => 7 }

/-- Positional form of the nested loops: the slice of cell `(row, col)`
sits at list position `row * COLS + col`. -/
theorem sliceMemeGridOk_get (img : RasterImage) (row col : Nat)
    (hr : row < ROWS) (hc : col < COLS) :
    (sliceMemeGridOk img).get? (row * COLS + col) =
      some (mkSlice img (img.width / COLS) (img.height / ROWS) row col) := by
  have hr4 : row < 4 := hr
  have hc6 : col < 6 := hc
  have hrow : row = 0 ∨ row = 1 ∨ row = 2 ∨ row = 3 := by omega
  have hcol : col = 0 ∨ col = 1 ∨ col = 2 ∨ col = 3 ∨ col = 4 ∨ col = 5 := by
    omega
  rcases hrow with h | h | h | h <;> subst h <;>
    rcases hcol with h | h | h | h | h | h <;> subst h <;> rfl

/-- `needle` occurs as a contiguous run inside the character list
(`String.prototype.includes`). -/
def listContainsSub (needle : List Char) : List Char → Bool
  | [] => needle.isEmpty
  | c :: rest => needle.isPrefixOf (c :: rest) || listContainsSub needle rest

/-- The character list ends with `suffix`
(`String.prototype.endsWith`). -/
def listEndsWith (suffix l : List Char) : Bool :=
  suffix.reverse.isPrefixOf l.reverse

/-- Result of `processImage`, mirroring the `MarketingAsset` record of
`src/types.ts` together with the drawing geometry computed at lines 41-62
of `src/services/imageUtils.ts`: the canvas dimensions, the cover scale,
the centring offsets of the `drawImage` call, and the export metadata. -/
structure ProcessedImage where
  kind : String
  fileName : String
  mimeType : String
  width : ℚ
  height : ℚ
  scale : ℚ
  x : ℚ
  y : ℚ

/-- The `img.onload` body of `processImage` (lines 40-79 of
`src/services/imageUtils.ts`): a `targetWidth × targetHeight` canvas, the
cover scale `Math.max(targetWidth / img.width, targetHeight / img.height)`
and the centred offsets of the scaled source. -/
def processImageOk (img : RasterImage) (targetWidth targetHeight : ℚ)
    (fileName : String) : ProcessedImage :=
  let scale := max (targetWidth / (img.width : ℚ)) (targetHeight / (img.height : ℚ))
  { kind := if listContainsSub "banner".toList fileName.toList then "banner" else "logo"
    fileName := fileName
    mimeType :=
      if listEndsWith ".png".toList (fileName.toList.map Char.toLower)
      then "image/png" else "image/jpeg"
    width := targetWidth
    height := targetHeight
    scale := scale
    x := targetWidth / 2 - ((img.width : ℚ) / 2) * scale
    y := targetHeight / 2 - ((img.height : ℚ) / 2) * scale }

/-- `processImage` (lines 29-83 of `src/services/imageUtils.ts`): decode
failure fires `img.onerror` and rejects with the message of line 81. -/
def processImage (decoded : Option RasterImage) (targetWidth targetHeight : ℚ)
    (fileName : String) : Except String ProcessedImage :=
  match decoded with
  | none => Except.error "Image processing failed"
  | some img => Except.ok (processImageOk img targetWidth targetHeight fileName)

/-- Payload of one archive entry: a slice blob, a marketing-asset blob, or
a plain-text file. -/
inductive ZipContent where
  | sliceBlob (s : SlicedImage)
  | assetBlob (a : ProcessedImage)
  | text (s : String)

/-- One named entry of the produced archive. -/
structure ZipEntry where
  path : String
  content : ZipContent

/-- `downloadBatch` (lines 181-207 of `src/services/imageUtils.ts`),
modelled as the archive it hands to `saveAs`: the name of the saved file
plus the entries accumulated by the three `file` loops.  `zip.folder
("stickers")` makes `file` calls on the returned handle store entries
under the `stickers/` path. -/
def downloadBatch (slices : List SlicedImage)
    (extraAssets : List ProcessedImage)
    (metaData : Option (String × String)) : String × List ZipEntry :=
  let zip : List ZipEntry := []
  let zip := slices.foldl
    (fun z s => z ++ [{ path := "stickers/" ++ s.fileName
                        content := ZipContent.sliceBlob s }]) zip
  let zip := extraAssets.foldl
    (fun z a => z ++ [{ path := a.fileName
                        content := ZipContent.assetBlob a }]) zip
  let zip := match metaData with
    | some md => zip ++
        [{ path := "info.txt"
           content := ZipContent.text
             ("Title: " ++ md.1 ++ "\n\nDescription:\n" ++ md.2 ++
               "\n\nGenerated by AI Creative Meme Studio") }]
    | none => zip
  ("meme_pack.zip", zip)

/-- The opening-brace character, written by code point to keep braces out
of string literals. -/
def braceOpen : Char := Char.ofNat 123

/-- The closing-brace character. -/
def braceClose : Char := Char.ofNat 125

/-- The double-quote character. -/
def quoteChar : Char := Char.ofNat 34

/-- The backslash character. -/
def backslashChar : Char := Char.ofNat 92

/-- JSON insignificant whitespace. -/
def isJsonWs (c : Char) : Bool :=
  c = ' ' || c = '\n' || c = '\t' || c = '\r'

/-- Drop leading JSON whitespace. -/
def skipWs : List Char → List Char
  | [] => []
  | c :: rest => if isJsonWs c then skipWs rest else c :: rest

/-- JSON string escapes (the single-character ones). -/
def unescapeChar (c : Char) : Option Char :=
  if c = quoteChar then some quoteChar
  else if c = backslashChar then some backslashChar
  else if c = '/' then some '/'
  else if c = 'n' then some '\n'
  else if c = 't' then some '\t'
  else if c = 'r' then some '\r'
  else if c = 'b' then some (Char.ofNat 8)
  else if c = 'f' then some (Char.ofNat 12)
  else none

/-- A JSON value, as produced by the host `JSON.parse`.  Numbers are
carried as their source lexeme rather than as the IEEE-754 double the
host builds from it: no theorem below compares numeric values, only parse
success/failure and the shape of the result matter.  Object members are
kept in source order (duplicates included), mirroring the property
creation order of the host. -/
inductive Json where
  | null
  | bool (b : Bool)
  | num (lexeme : String)
  | str (s : String)
  | arr (elems : List Json)
  | obj (members : List (String × Json))

/-- Value of a hexadecimal digit. -/
def hexVal (c : Char) : Option Nat :=
  let n := c.toNat
  if 48 ≤ n ∧ n ≤ 57 then some (n - 48)
  else if 65 ≤ n ∧ n ≤ 70 then some (n - 55)
  else if 97 ≤ n ∧ n ≤ 102 then some (n - 87)
  else none

/-- Four hexadecimal digits (the `XXXX` of a `\uXXXX` escape). -/
def parseHex4 : List Char → Option (Nat × List Char)
  | h1 :: h2 :: h3 :: h4 :: rest =>
    match hexVal h1, hexVal h2, hexVal h3, hexVal h4 with
    | some a, some b, some c, some d =>
      some (((a * 16 + b) * 16 + c) * 16 + d, rest)
    | _, _, _, _ => none
  | _ => none

/-- One UTF-16 code unit as a character.  A JavaScript string can hold a
lone surrogate, which a Lean `Char` cannot; a lone surrogate is carried as
U+FFFD.  This only affects the representation of the decoded value on
strings that are not valid Unicode — never whether the parse succeeds. -/
def codeUnitChar (n : Nat) : Char :=
  if 0xD800 ≤ n ∧ n ≤ 0xDFFF then Char.ofNat 0xFFFD else Char.ofNat n

/-- Decimal digit. -/
def isDigit (c : Char) : Bool :=
  48 ≤ c.toNat && c.toNat ≤ 57

/-- Longest leading run of decimal digits and the remaining input. -/
def spanDigits : List Char → List Char × List Char
  | [] => ([], [])
  | c :: rest =>
    if isDigit c then
      let (ds, r) := spanDigits rest
      (c :: ds, r)
    else ([], c :: rest)

/-- Parse the body of a JSON string whose opening quote has been
consumed; returns the decoded characters and the input following the
closing quote.  Faithful to `JSON.parse`: unescaped control characters
(below U+0020) are rejected, the escapes are exactly
`\" \\ \/ \b \f \n \r \t \uXXXX`, and a surrogate pair of `\u` escapes
decodes to one supplementary character.  Each step consumes at least one
input character, so fuel at least the input length suffices. -/
def parseJStringChars : Nat → List Char → Option (List Char × List Char)
  | 0, _ => none
  | fuel + 1, l =>
    match l with
    | [] => none
    | c :: rest =>
      if c = quoteChar then some ([], rest)
      else if c = backslashChar then
        match rest with
        | [] => none
        | e :: rest2 =>
          if e = 'u' then
            match parseHex4 rest2 with
            | none => none
            | some (n, rest3) =>
              if 0xD800 ≤ n ∧ n ≤ 0xDBFF then
                match rest3 with
                | e2 :: u2 :: more =>
                  if e2 = backslashChar ∧ u2 = 'u' then
                    match parseHex4 more with
                    | none => none
                    | some (m, rest4) =>
                      if 0xDC00 ≤ m ∧ m ≤ 0xDFFF then
                        match parseJStringChars fuel rest4 with
                        | some (s, r) =>
                          some (Char.ofNat (0x10000 + (n - 0xD800) * 0x400 +
                            (m - 0xDC00)) :: s, r)
                        | none => none
                      else
                        match parseJStringChars fuel rest4 with
                        | some (s, r) =>
                          some (codeUnitChar n :: codeUnitChar m :: s, r)
                        | none => none
                  else
                    match parseJStringChars fuel rest3 with
                    | some (s, r) => some (codeUnitChar n :: s, r)
                    | none => none
                | _ =>
                  match parseJStringChars fuel rest3 with
                  | some (s, r) => some (codeUnitChar n :: s, r)
                  | none => none
              else
                match parseJStringChars fuel rest3 with
                | some (s, r) => some (codeUnitChar n :: s, r)
                | none => none
          else
            match unescapeChar e, parseJStringChars fuel rest2 with
            | some ch, some (s, r) => some (ch :: s, r)
            | _, _ => none
      else if c.toNat < 32 then none
      else
        match parseJStringChars fuel rest with
        | some (s, r) => some (c :: s, r)
        | none => none

/-- A complete JSON string body as a `String`. -/
def parseJString (fuel : Nat) (l : List Char) : Option (String × List Char) :=
  match parseJStringChars fuel l with
  | some (cs, r) => some (String.mk cs, r)
  | none => none

/-- Exponent part of a JSON number (optional); `pre` is the lexeme so
far. -/
def parseExpTail (pre : List Char) (l : List Char) :
    Option (Json × List Char) :=
  match l with
  | [] => some (Json.num (String.mk pre), [])
  | c :: r =>
    if c = 'e' ∨ c = 'E' then
      match r with
      | [] => none
      | s :: r2 =>
        if s = '+' ∨ s = '-' then
          match spanDigits r2 with
          | ([], _) => none
          | (ds, r3) => some (Json.num (String.mk (pre ++ c :: s :: ds)), r3)
        else
          match spanDigits r with
          | ([], _) => none
          | (ds, r3) => some (Json.num (String.mk (pre ++ c :: ds)), r3)
    else some (Json.num (String.mk pre), c :: r)

/-- Fraction and exponent parts of a JSON number (both optional); a dot
must be followed by at least one digit. -/
def parseNumTail (pre : List Char) (l : List Char) :
    Option (Json × List Char) :=
  match l with
  | c :: r =>
    if c = '.' then
      match spanDigits r with
      | ([], _) => none
      | (ds, r2) => parseExpTail (pre ++ c :: ds) r2
    else parseExpTail pre l
  | [] => parseExpTail pre l

/-- A JSON number, by the strict grammar of the host
(`-? (0 | [1-9][0-9]*) frac? exp?`): no leading `+`, no bare dot, no
digits after a leading zero (a following digit is simply not consumed, so
the enclosing context rejects it, as the host does). -/
def parseJNumber (l : List Char) : Option (Json × List Char) :=
  match l with
  | [] => none
  | c0 :: l1 =>
    if c0 = '-' then
      match l1 with
      | [] => none
      | c :: rest =>
        if c = '0' then parseNumTail [c0, c] rest
        else if isDigit c then
          let (ds, r) := spanDigits rest
          parseNumTail (c0 :: c :: ds) r
        else none
    else if c0 = '0' then parseNumTail [c0] l1
    else if isDigit c0 then
      let (ds, r) := spanDigits l1
      parseNumTail (c0 :: ds) r
    else none

mutual

/-- A JSON value: string, object, array, `true`, `false`, `null` or
number, after leading whitespace.  Fuel bounds the recursion depth; every
cycle through these functions consumes input (see `jsonParse`). -/
def parseJValue : Nat → List Char → Option (Json × List Char)
  | 0, _ => none
  | fuel + 1, l =>
    match skipWs l with
    | [] => none
    | c :: rest =>
      if c = quoteChar then
        match parseJString fuel rest with
        | some (s, r) => some (Json.str s, r)
        | none => none
      else if c = braceOpen then parseJObject fuel rest
      else if c = '[' then parseJArray fuel rest
      else if c = 't' then
        match rest with
        | 'r' :: 'u' :: 'e' :: r => some (Json.bool true, r)
        | _ => none
      else if c = 'f' then
        match rest with
        | 'a' :: 'l' :: 's' :: 'e' :: r => some (Json.bool false, r)
        | _ => none
      else if c = 'n' then
        match rest with
        | 'u' :: 'l' :: 'l' :: r => some (Json.null, r)
        | _ => none
      else parseJNumber (c :: rest)

/-- A JSON object whose opening brace has been consumed: either
immediately closed, or a member list. -/
def parseJObject : Nat → List Char → Option (Json × List Char)
  | 0, _ => none
  | fuel + 1, l =>
    match skipWs l with
    | [] => none
    | c :: rest =>
      if c = braceClose then some (Json.obj [], rest)
      else
        match parseJMembers fuel (c :: rest) with
        | some (kvs, r) => some (Json.obj kvs, r)
        | none => none

/-- The members of a non-empty JSON object, `"key": value` pairs
separated by commas, consuming the closing brace. -/
def parseJMembers : Nat → List Char →
    Option (List (String × Json) × List Char)
  | 0, _ => none
  | fuel + 1, l =>
    match skipWs l with
    | [] => none
    | c :: rest =>
      if c = quoteChar then
        match parseJString fuel rest with
        | none => none
        | some (key, r1) =>
          match skipWs r1 with
          | [] => none
          | c2 :: r2 =>
            if c2 = ':' then
              match parseJValue fuel r2 with
              | none => none
              | some (v, r3) =>
                match skipWs r3 with
                | [] => none
                | c4 :: r5 =>
                  if c4 = ',' then
                    match parseJMembers fuel r5 with
                    | some (kvs, r6) => some ((key, v) :: kvs, r6)
                    | none => none
                  else if c4 = braceClose then some ([(key, v)], r5)
                  else none
            else none
      else none

/-- A JSON array whose opening bracket has been consumed: either
immediately closed, or an element list. -/
def parseJArray : Nat → List Char → Option (Json × List Char)
  | 0, _ => none
  | fuel + 1, l =>
    match skipWs l with
    | [] => none
    | c :: rest =>
      if c = ']' then some (Json.arr [], rest)
      else
        match parseJArrayItems fuel (c :: rest) with
        | some (vs, r) => some (Json.arr vs, r)
        | none => none

/-- The elements of a non-empty JSON array, separated by commas,
consuming the closing bracket. -/
def parseJArrayItems : Nat → List Char → Option (List Json × List Char)
  | 0, _ => none
  | fuel + 1, l =>
    match parseJValue fuel l with
    | none => none
    | some (v, r) =>
      match skipWs r with
      | [] => none
      | c :: r2 =>
        if c = ',' then
          match parseJArrayItems fuel r2 with
          | some (vs, r3) => some (v :: vs, r3)
          | none => none
        else if c = ']' then some ([v], r2)
        else none

end

/-- The host `JSON.parse`: one JSON value with nothing but whitespace
around it, or `none` for a syntax error.  Along any recursion path of the
fueled parsers, at most three fuel decrements happen between two input
characters being consumed, so fuel `4 * (length + 1)` can never run out
before the input does: the fuel bound rejects no input the host
accepts. -/
def jsonParse (s : String) : Option Json :=
  match parseJValue (4 * (s.length + 1)) s.toList with
  | some (v, rest) => if (skipWs rest).isEmpty then some v else none
  | none => none

/-- What `generateMemeMetadata` resolves with: either the value
`JSON.parse` produced, returned as-is by `return JSON.parse(text)` (the
source casts it to `{title, description}` without inspecting it), or the
fallback object built in the `catch` block. -/
inductive MetaResult where
  | parsed (v : Json)
  | fallback (title description : String)

/-- `generateMemeMetadata` (lines 188-220 of
`src/services/geminiService.ts`), modelled from the point where the model
response has settled.  `responseText` is `response.text` (`none` when the
field is absent); `response.text || '{}'` substitutes `"\x7b\x7d"` for a
missing or empty text.  A successful parse resolves with the parsed value
as-is — whatever JSON document it is; only a parse failure is caught and
resolves with the fallback pair.  `substring(0, 100)` is modelled by
`String.take 100` (they agree on strings without astral code points).
The function always resolves — the `try`/`catch` turns every parse
failure into a value. -/
def generateMemeMetadata (userPrompt : String) (responseText : Option String) :
    MetaResult :=
  let text := match responseText with
    | none => "\x7b\x7d"
    | some t => if t = "" then "\x7b\x7d" else t
  match jsonParse text with
  | some v => MetaResult.parsed v
  | none => MetaResult.fallback "创意表情包" (userPrompt.take 100)

/-- The `AppState` enum of `src/types.ts`. -/
inductive AppState where
  | IDLE
  | GENERATING
  | PROCESSING
  | COMPLETE
  | ERROR
deriving DecidableEq

/-- The pieces of React state of `src/App.tsx` that `handleGenerate`
touches. -/
structure AppModel where
  status : AppState
  errorMsg : Option String
  originalImage : Option String
  slicedImages : List SlicedImage
  banner : Option ProcessedImage
  logo : Option ProcessedImage
  metaData : Option (String × String)

/-- `Promise.all` over the four generation requests of lines 69-74 of
`src/App.tsx`: it resolves with the tuple when every request resolves and
rejects when any request rejects.  In real time the rejection that
surfaces is the first to settle; the model surfaces the leftmost one, and
no theorem below depends on which rejection is chosen. -/
def promiseAll4 {A B C D : Type} (a : Except String A) (b : Except String B)
    (c : Except String C) (d : Except String D) : Except String (A × B × C × D) :=
  match a, b, c, d with
  | .ok x, .ok y, .ok z, .ok w => .ok (x, y, z, w)
  | .error e, _, _, _ => .error e
  | _, .error e, _, _ => .error e
  | _, _, .error e, _ => .error e
  | _, _, _, .error e => .error e

/-- The `catch` block of lines 98-102 of `src/App.tsx`:
`setStatus(AppState.ERROR)` and
`setErrorMsg(err.message || "生成过程中发生意外错误。")`. -/
def toErrorState (s : AppModel) (e : String) : AppModel :=
  { s with status := AppState.ERROR
           errorMsg := some (if e = "" then "生成过程中发生意外错误。" else e) }

/-- `String.prototype.trim`, modelled over the character list (whitespace
here is the space, newline, tab and carriage-return characters the
source's prompts can realistically contain). -/
def jsTrim (s : String) : String :=
  String.mk (((s.toList.dropWhile fun c => isJsonWs c).reverse.dropWhile
    fun c => isJsonWs c).reverse)

/-- `handleGenerate` (lines 37-103 of `src/App.tsx`).  The four generation
requests are passed as their settled outcomes; `decode` is the host image
decoder applied to the returned base64 payloads.  `ensureApiKey` is
modelled as succeeding (in the source it always resolves `true`), and the
cosmetic `statusMessage` strings are omitted.  Each `setX` call becomes a
record update, in source order, so the state after a failure is exactly
the state the source's React state holds when the `catch` block runs. -/
def handleGenerate (s0 : AppModel) (prompt : String)
    (decode : String → Option RasterImage)
    (memeR bannerR logoR : Except String String)
    (metaR : Except String (String × String)) : AppModel :=
  if jsTrim prompt = "" then
    { s0 with errorMsg := some "请输入提示词来描述您的表情包。" }
  else
    let s1 := { s0 with errorMsg := none, status := AppState.GENERATING }
    match promiseAll4 memeR bannerR logoR metaR with
    | .error e => toErrorState s1 e
    | .ok (memeB, bannerB, logoB, meta) =>
      let s2 := { s1 with originalImage := some memeB
                          metaData := some meta
                          status := AppState.PROCESSING }
      match sliceMemeGrid (decode memeB) with
      | .error e => toErrorState s2 e
      | .ok slices =>
        let s3 := { s2 with slicedImages := slices }
        match processImage (decode bannerB) 750 400 "banner.png" with
        | .error e => toErrorState s3 e
        | .ok bannerAsset =>
          let s4 := { s3 with banner := some bannerAsset }
          match processImage (decode logoB) 512 512 "logo.png" with
          | .error e => toErrorState s4 e
          | .ok logoAsset =>
            { s4 with logo := some logoAsset, status := AppState.COMPLETE }

/-- The initial React state of `src/App.tsx` (also the state `reset`
restores). -/
def initialAppModel : AppModel :=
  { status := AppState.IDLE, errorMsg := none, originalImage := none
    slicedImages := [], banner := none, logo := none, metaData := none }

/-- A 1000×1000 source bitmap (the cover-fit scenario of the
specification). -/
def bannerSource : RasterImage :=
  { width := 1000, height := 1000, pixel := fun _ _ => 0 }

/-- Dimensions of every slice produced by the loop: each canvas is
`cellWidth × cellHeight`. -/
theorem sliceMemeGridOk_dims (img : RasterImage) :
    ∀ s, s ∈ sliceMemeGridOk img →
      s.width = img.width / COLS ∧ s.height = img.height / ROWS := by
  intro s hs
  obtain ⟨l, hl, hs⟩ := List.mem_flatten.mp hs
  obtain ⟨row, _, rfl⟩ := List.mem_map.mp hl
  obtain ⟨col, _, rfl⟩ := List.mem_map.mp hs
  exact ⟨rfl, rfl⟩

/-- Appending one element per step under `foldl` is `map`. -/
theorem foldlAppendMap {α β : Type} (f : α → β) (l : List α)
    (init : List β) :
    l.foldl (fun z s => z ++ [f s]) init = init ++ l.map f := by
  induction l generalizing init with
  | nil => simp
  | cons a l ih => simp [ih]

/-- C1: for every composite image that decodes successfully,
`sliceMemeGrid` returns the slices in row-major iteration order (the file
name at list position `k` is the one for index `k + 1`, running
`meme_01.png` … `meme_24.png`), and the slice of cell `(row, col)` sits at
position `row * COLS + col` carrying index `row * COLS + col + 1` in its
`id` and zero-padded in its file name. -/
theorem sliceMemeGrid_row_major_order_and_names (img : RasterImage) :
    sliceMemeGrid (some img) = Except.ok (sliceMemeGridOk img) ∧
    (sliceMemeGridOk img).map (fun s => s.fileName) =
      (List.range (ROWS * COLS)).map
        (fun k => "meme_" ++ pad2 (k + 1) ++ ".png") ∧
    ∀ row col, row < ROWS → col < COLS →
      (sliceMemeGridOk img).get? (row * COLS + col) =
        some (mkSlice img (img.width / COLS) (img.height / ROWS) row col) ∧
      (mkSlice img (img.width / COLS) (img.height / ROWS) row col).fileName =
        "meme_" ++ pad2 (row * COLS + col + 1) ++ ".png" ∧
      (mkSlice img (img.width / COLS) (img.height / ROWS) row col).id =
        "meme-" ++ toString (row * COLS + col + 1) :=
  ⟨rfl, rfl, fun row col hr hc =>
    ⟨sliceMemeGridOk_get img row col hr hc, rfl, rfl⟩⟩

/-- Witness for C1 at the 3840×2160 composite, cell `(0, 1)`. -/
theorem sliceMemeGrid_row_major_order_and_names_witness :
    (sliceMemeGridOk testComposite).get? 1 =
      some (mkSlice testComposite 640 540 0 1) ∧
    (mkSlice testComposite 640 540 0 1).fileName = "meme_02.png" ∧
    (mkSlice testComposite 640 540 0 1).id = "meme-2" :=
  (sliceMemeGrid_row_major_order_and_names testComposite).2.2 0 1
    (by decide) (by decide)

/-- C2: for every composite of dimensions `W × H` the slicer returns
exactly `COLS * ROWS = 24` slices, each of dimensions
`(W / COLS) × (H / ROWS)` (floor division, as produced by the integer
truncation of the canvas size assignment); in particular a 3840×2160
composite yields 24 slices of exactly 640×540. -/
theorem sliceMemeGrid_count_and_cell_dims (img : RasterImage) :
    (sliceMemeGridOk img).length = COLS * ROWS ∧
    (∀ s, s ∈ sliceMemeGridOk img →
      s.width = img.width / COLS ∧ s.height = img.height / ROWS) ∧
    ∀ f : Nat → Nat → Nat,
      (sliceMemeGridOk { width := 3840, height := 2160, pixel := f }).length
          = 24 ∧
      ∀ s, s ∈ sliceMemeGridOk { width := 3840, height := 2160, pixel := f } →
        s.width = 640 ∧ s.height = 540 :=
  ⟨rfl, sliceMemeGridOk_dims img, fun f =>
    ⟨rfl, fun s hs => by
      have h := sliceMemeGridOk_dims { width := 3840, height := 2160, pixel := f } s hs
      have e1 : ({ width := 3840, height := 2160, pixel := f } :
          RasterImage).width / COLS = 640 := by
        show (3840 : Nat) / COLS = 640
        rfl
      have e2 : ({ width := 3840, height := 2160, pixel := f } :
          RasterImage).height / ROWS = 540 := by
        show (2160 : Nat) / ROWS = 540
        rfl
      exact ⟨h.1.trans e1, h.2.trans e2⟩⟩⟩

/-- Witness for C2 at the 3840×2160 composite and its first slice. -/
theorem sliceMemeGrid_count_and_cell_dims_witness :
    (sliceMemeGridOk testComposite).length = 24 ∧
    (mkSlice testComposite 640 540 0 0).width = 640 ∧
    (mkSlice testComposite 640 540 0 0).height = 540 := by
  have hmem : mkSlice testComposite 640 540 0 0 ∈ sliceMemeGridOk testComposite :=
    List.get?_mem (rfl :
      (sliceMemeGridOk testComposite).get? 0 =
        some (mkSlice testComposite 640 540 0 0))
  have h := (sliceMemeGrid_count_and_cell_dims testComposite).2.1 _ hmem
  exact ⟨(sliceMemeGrid_count_and_cell_dims testComposite).1, h.1, h.2⟩

/-- C6: when the composite bytes fail to decode, `sliceMemeGrid` rejects
the whole operation with the single (non-empty, human-readable) decode
message of line 177 and never resolves with any list of slices — partial
results cannot reach the caller. -/
theorem sliceMemeGrid_decode_failure_rejects :
    sliceMemeGrid none = Except.error "加载生成的图片失败，无法切片。" ∧
    "加载生成的图片失败，无法切片。" ≠ "" ∧
    ∀ l : List SlicedImage, sliceMemeGrid none ≠ Except.ok l :=
  ⟨rfl, by decide, fun l h => Except.noConfusion h⟩

/-- C9: the rounded-rectangle clip mask — radius
`0.05 * min cellWidth cellHeight`, encoded exactly in `insideMask` — is
applied to every slice of every composite: any pixel whose centre falls
outside the rounded rectangle is fully transparent in the output slice.
`sliceMemeGrid` takes only the composite, so no caller-visible parameter
can disable the mask: the conclusion holds for all inputs
unconditionally. -/
theorem sliceMemeGrid_mask_unconditional (img : RasterImage)
    (row col i j : Nat) (hr : row < ROWS) (hc : col < COLS)
    (hmask : insideMask (img.width / COLS) (img.height / ROWS) i j = false) :
    ∀ s, (sliceMemeGridOk img).get? (row * COLS + col) = some s →
      s.pixel i j = none := by
  intro s hs
  rw [sliceMemeGridOk_get img row col hr hc] at hs
  injection hs with hs
  subst hs
  simp only [mkSlice]
  rw [if_neg]
  intro h
  rw [hmask] at h
  exact Bool.noConfusion h.2.2

/-- Witness for C9: the corner pixel of the first slice of the 3840×2160
composite is clipped to transparent. -/
theorem sliceMemeGrid_mask_unconditional_witness :
    insideMask 640 540 0 0 = false ∧
    (mkSlice testComposite 640 540 0 0).pixel 0 0 = none :=
  ⟨by decide, sliceMemeGrid_mask_unconditional testComposite 0 0 0 0
    (by decide) (by decide) (by decide) _ rfl⟩

/-- Counterexample for C5: in the 3840×2160 all-colour-7 composite the
corner pixel `(0, 0)` of the first slice is transparent (`none`), not the
exact copy `some 7` of the source cell region — the unconditional
rounded-corner mask breaks exactness at the corners. -/
theorem sliceMemeGrid_corner_pixel_not_exact_copy :
    (sliceMemeGridOk testComposite).get? 0 =
      some (mkSlice testComposite 640 540 0 0) ∧
    testComposite.pixel 0 0 = 7 ∧
    (mkSlice testComposite 640 540 0 0).pixel 0 0 = none ∧
    (mkSlice testComposite 640 540 0 0).pixel 0 0 ≠
      some (testComposite.pixel 0 0) :=
  ⟨rfl, rfl, by decide, by decide⟩

/-- C5 (amended): for composites with integer-sized cells
(`COLS ∣ width`, `ROWS ∣ height`), every source pixel `(x, y)` whose
position within its cell passes the rounded-corner mask is copied exactly,
unscaled, into the slice of its cell — laying the slices back out in
row-major order (cell `(y / cellHeight, x / cellWidth)` at list position
`row * COLS + col`, local offset `(x % cellWidth, y % cellHeight)`)
reproduces the composite at every mask-interior pixel. -/
theorem sliceMemeGrid_exact_copy_inside_mask (img : RasterImage)
    (x y : Nat) (hdw : COLS ∣ img.width) (hdh : ROWS ∣ img.height)
    (hx : x < img.width) (hy : y < img.height)
    (hmask : insideMask (img.width / COLS) (img.height / ROWS)
      (x % (img.width / COLS)) (y % (img.height / ROWS)) = true) :
    ∀ s, (sliceMemeGridOk img).get?
        ((y / (img.height / ROWS)) * COLS + x / (img.width / COLS)) = some s →
      s.pixel (x % (img.width / COLS)) (y % (img.height / ROWS)) =
        some (img.pixel x y) := by
  intro s hs
  obtain ⟨kw, hkw⟩ := hdw
  obtain ⟨kh, hkh⟩ := hdh
  have hCOLS : COLS = 6 := rfl
  have hROWS : ROWS = 4 := rfl
  have hcw : img.width / COLS = kw := by
    rw [hkw, Nat.mul_div_cancel_left _ (by decide : 0 < COLS)]
  have hch : img.height / ROWS = kh := by
    rw [hkh, Nat.mul_div_cancel_left _ (by decide : 0 < ROWS)]
  have hkw0 : 0 < kw := by
    rcases Nat.eq_zero_or_pos kw with h | h
    · rw [hkw, h, hCOLS] at hx; omega
    · exact h
  have hkh0 : 0 < kh := by
    rcases Nat.eq_zero_or_pos kh with h | h
    · rw [hkh, h, hROWS] at hy; omega
    · exact h
  have hcol : x / (img.width / COLS) < COLS := by
    rw [hcw, Nat.div_lt_iff_lt_mul hkw0, hCOLS]
    rw [hkw, hCOLS] at hx; omega
  have hrow : y / (img.height / ROWS) < ROWS := by
    rw [hch, Nat.div_lt_iff_lt_mul hkh0, hROWS]
    rw [hkh, hROWS] at hy; omega
  rw [sliceMemeGridOk_get img _ _ hrow hcol] at hs
  injection hs with hs
  subst hs
  simp only [mkSlice]
  rw [if_pos]
  · have ex : x / (img.width / COLS) * (img.width / COLS) +
        x % (img.width / COLS) = x := by
      rw [Nat.mul_comm]
      exact Nat.div_add_mod x (img.width / COLS)
    have ey : y / (img.height / ROWS) * (img.height / ROWS) +
        y % (img.height / ROWS) = y := by
      rw [Nat.mul_comm]
      exact Nat.div_add_mod y (img.height / ROWS)
    rw [ex, ey]
  · exact ⟨Nat.mod_lt _ (hcw ▸ hkw0), Nat.mod_lt _ (hch ▸ hkh0), hmask⟩

/-- Witness for the amended C5 at the centre pixel of cell `(0, 0)` of the
3840×2160 composite. -/
theorem sliceMemeGrid_exact_copy_inside_mask_witness :
    (6 ∣ 3840) ∧ insideMask 640 540 320 270 = true ∧
    (mkSlice testComposite 640 540 0 0).pixel 320 270 = some 7 :=
  ⟨by decide, by decide, sliceMemeGrid_exact_copy_inside_mask testComposite
    320 270 (by decide) (by decide) (by decide) (by decide) (by decide)
    _ rfl⟩

/-- C3: for every decodable source and target box, `processImage` computes
`scale = max (targetWidth / width) (targetHeight / height)` and centres
the scaled source at `x = targetWidth/2 - (width * scale)/2`,
`y = targetHeight/2 - (height * scale)/2`; for a 1000×1000 source fit to
750×400 this gives scale `3/4`, scaled size 750×750, horizontal offset 0
and vertical offset −175. -/
theorem processImage_cover_scale_and_offsets (img : RasterImage)
    (tw th : ℚ) (name : String) :
    (processImageOk img tw th name).scale =
      max (tw / (img.width : ℚ)) (th / (img.height : ℚ)) ∧
    (processImageOk img tw th name).x =
      tw / 2 - ((img.width : ℚ) * (processImageOk img tw th name).scale) / 2 ∧
    (processImageOk img tw th name).y =
      th / 2 - ((img.height : ℚ) * (processImageOk img tw th name).scale) / 2 ∧
    ((processImageOk bannerSource 750 400 "banner.png").scale = 3 / 4 ∧
      (bannerSource.width : ℚ) *
        (processImageOk bannerSource 750 400 "banner.png").scale = 750 ∧
      (bannerSource.height : ℚ) *
        (processImageOk bannerSource 750 400 "banner.png").scale = 750 ∧
      (processImageOk bannerSource 750 400 "banner.png").x = 0 ∧
      (processImageOk bannerSource 750 400 "banner.png").y = -175) := by
  refine ⟨rfl, ?_, ?_, ?_, ?_, ?_, ?_, ?_⟩
  · simp only [processImageOk]
    ring
  · simp only [processImageOk]
    ring
  · norm_num [processImageOk, bannerSource]
  · norm_num [processImageOk, bannerSource]
  · norm_num [processImageOk, bannerSource]
  · norm_num [processImageOk, bannerSource]
  · norm_num [processImageOk, bannerSource]

/-- C4: for all targets and all (positive-dimension) sources — including
sources smaller than the target, which are upscaled — the output canvas is
exactly `targetWidth × targetHeight`, the scaled source is at least as
large as the target in both dimensions, and the drawn rectangle
`[x, x + width*scale] × [y, y + height*scale]` covers the whole canvas
`[0, targetWidth] × [0, targetHeight]`, so no unpainted border pixels
remain. -/
theorem processImage_output_dims_and_cover (img : RasterImage)
    (tw th : ℚ) (name : String)
    (hw : 0 < img.width) (hh : 0 < img.height) :
    (processImageOk img tw th name).width = tw ∧
    (processImageOk img tw th name).height = th ∧
    tw ≤ (img.width : ℚ) * (processImageOk img tw th name).scale ∧
    th ≤ (img.height : ℚ) * (processImageOk img tw th name).scale ∧
    (processImageOk img tw th name).x ≤ 0 ∧
    tw ≤ (processImageOk img tw th name).x +
      (img.width : ℚ) * (processImageOk img tw th name).scale ∧
    (processImageOk img tw th name).y ≤ 0 ∧
    th ≤ (processImageOk img tw th name).y +
      (img.height : ℚ) * (processImageOk img tw th name).scale := by
  have hwQ : (0 : ℚ) < (img.width : ℚ) := by exact_mod_cast hw
  have hhQ : (0 : ℚ) < (img.height : ℚ) := by exact_mod_cast hh
  have hWc : tw ≤ (img.width : ℚ) *
      max (tw / (img.width : ℚ)) (th / (img.height : ℚ)) := by
    rw [mul_comm, ← div_le_iff hwQ]
    exact le_max_left _ _
  have hHc : th ≤ (img.height : ℚ) *
      max (tw / (img.width : ℚ)) (th / (img.height : ℚ)) := by
    rw [mul_comm, ← div_le_iff hhQ]
    exact le_max_right _ _
  simp only [processImageOk]
  refine ⟨trivial, trivial, hWc, hHc, by linarith, by linarith, by linarith,
    by linarith⟩

/-- Witness for C4 at the 1000×1000 source and the 750×400 target. -/
theorem processImage_output_dims_and_cover_witness :
    0 < bannerSource.width ∧
    ((processImageOk bannerSource 750 400 "banner.png").width = 750 ∧
      (processImageOk bannerSource 750 400 "banner.png").height = 400 ∧
      750 ≤ (bannerSource.width : ℚ) *
        (processImageOk bannerSource 750 400 "banner.png").scale ∧
      400 ≤ (bannerSource.height : ℚ) *
        (processImageOk bannerSource 750 400 "banner.png").scale ∧
      (processImageOk bannerSource 750 400 "banner.png").x ≤ 0 ∧
      750 ≤ (processImageOk bannerSource 750 400 "banner.png").x +
        (bannerSource.width : ℚ) *
          (processImageOk bannerSource 750 400 "banner.png").scale ∧
      (processImageOk bannerSource 750 400 "banner.png").y ≤ 0 ∧
      400 ≤ (processImageOk bannerSource 750 400 "banner.png").y +
        (bannerSource.height : ℚ) *
          (processImageOk bannerSource 750 400 "banner.png").scale) :=
  ⟨by decide, processImage_output_dims_and_cover bannerSource 750 400
    "banner.png" (by decide) (by decide)⟩

/-- C7: whenever any one of the four concurrently issued generation
requests rejects, the whole batch fails: the application lands in the
ERROR state with a non-empty error message, and none of the batch's
assets are stored — slices, banner, logo, metadata and the composite
preview are all exactly as they were before the batch ran. -/
theorem handleGenerate_any_failure_fails_batch (s0 : AppModel)
    (prompt : String) (decode : String → Option RasterImage)
    (memeR bannerR logoR : Except String String)
    (metaR : Except String (String × String)) (e : String)
    (hprompt : jsTrim prompt ≠ "")
    (hfail : memeR = Except.error e ∨ bannerR = Except.error e ∨
      logoR = Except.error e ∨ metaR = Except.error e) :
    (handleGenerate s0 prompt decode memeR bannerR logoR metaR).status =
        AppState.ERROR ∧
    (handleGenerate s0 prompt decode memeR bannerR logoR metaR).slicedImages =
        s0.slicedImages ∧
    (handleGenerate s0 prompt decode memeR bannerR logoR metaR).banner =
        s0.banner ∧
    (handleGenerate s0 prompt decode memeR bannerR logoR metaR).logo =
        s0.logo ∧
    (handleGenerate s0 prompt decode memeR bannerR logoR metaR).metaData =
        s0.metaData ∧
    (handleGenerate s0 prompt decode memeR bannerR logoR metaR).originalImage =
        s0.originalImage ∧
    (handleGenerate s0 prompt decode memeR bannerR logoR metaR).errorMsg ≠
        none := by
  unfold handleGenerate
  rw [if_neg hprompt]
  rcases memeR with e1 | v1 <;> rcases bannerR with e2 | v2 <;>
    rcases logoR with e3 | v3 <;> rcases metaR with e4 | v4 <;>
    simp_all [promiseAll4, toErrorState]

/-- Witness for C7: the composite request rejects while the other three
resolve. -/
theorem handleGenerate_any_failure_fails_batch_witness :
    jsTrim "一只猫" ≠ "" ∧
    (handleGenerate initialAppModel "一只猫" (fun _ => none)
        (Except.error "boom") (Except.ok "b") (Except.ok "l")
        (Except.ok ("t", "d"))).status = AppState.ERROR ∧
    (handleGenerate initialAppModel "一只猫" (fun _ => none)
        (Except.error "boom") (Except.ok "b") (Except.ok "l")
        (Except.ok ("t", "d"))).slicedImages = [] := by
  have h := handleGenerate_any_failure_fails_batch initialAppModel "一只猫"
    (fun _ => none) (Except.error "boom") (Except.ok "b") (Except.ok "l")
    (Except.ok ("t", "d")) "boom" (by decide) (Or.inl rfl)
  exact ⟨by decide, h.1, h.2.1⟩

/-- Reassociation of the `info.txt` template literal into its
line-structure pieces: title line, blank line, `Description:` line, the
description text, blank line, attribution line. -/
theorem infoContentPieces (title desc : String) :
    "Title: " ++ title ++ "\n\nDescription:\n" ++ desc ++
        "\n\nGenerated by AI Creative Meme Studio" =
      "Title: " ++ title ++ "\n" ++ "\n" ++ "Description:" ++ "\n" ++ desc ++
        "\n" ++ "\n" ++ "Generated by AI Creative Meme Studio" := by
  rw [show ("\n\nDescription:\n" : String) =
        "\n" ++ "\n" ++ "Description:" ++ "\n" from rfl,
      show ("\n\nGenerated by AI Creative Meme Studio" : String) =
        "\n" ++ "\n" ++ "Generated by AI Creative Meme Studio" from rfl]
  simp only [String.append_assoc]

/-- C8: `downloadBatch` stores every slice under the `stickers/` folder,
the extra assets (banner, logo) at the archive root, and, when metadata is
given, an `info.txt` whose content is exactly the title line
`Title: <title>`, a blank line, `Description:` on its own line, the
description text, a blank line and the attribution line
`Generated by AI Creative Meme Studio`; the archive is saved as
`meme_pack.zip`. -/
theorem downloadBatch_archive_layout (slices : List SlicedImage)
    (assets : List ProcessedImage) (title desc : String) :
    (downloadBatch slices assets (some (title, desc))).1 = "meme_pack.zip" ∧
    (downloadBatch slices assets (some (title, desc))).2 =
      slices.map (fun s => { path := "stickers/" ++ s.fileName
                             content := ZipContent.sliceBlob s }) ++
      assets.map (fun a => { path := a.fileName
                             content := ZipContent.assetBlob a }) ++
      [{ path := "info.txt"
         content := ZipContent.text
           ("Title: " ++ title ++ "\n" ++ "\n" ++ "Description:" ++ "\n" ++
             desc ++ "\n" ++ "\n" ++
             "Generated by AI Creative Meme Studio") }] ∧
    (downloadBatch slices assets none).2 =
      slices.map (fun s => { path := "stickers/" ++ s.fileName
                             content := ZipContent.sliceBlob s }) ++
      assets.map (fun a => { path := a.fileName
                             content := ZipContent.assetBlob a }) := by
  refine ⟨rfl, ?_, ?_⟩
  · simp only [downloadBatch, foldlAppendMap, List.nil_append]
    rw [infoContentPieces title desc]
  · simp only [downloadBatch, foldlAppendMap, List.nil_append]

/-- Counterexample for C10: when the response text is missing,
`response.text || '{}'` substitutes the empty object, which parses
successfully, so the function resolves with the parsed empty object —
carrying neither title nor description — not with the fallback pair the
claim states. -/
theorem generateMemeMetadata_missing_text_not_fallback :
    generateMemeMetadata "hello" none = MetaResult.parsed (Json.obj []) ∧
    generateMemeMetadata "hello" none ≠
      MetaResult.fallback "创意表情包" "hello" := by
  refine ⟨rfl, fun h => ?_⟩
  rw [show generateMemeMetadata "hello" none =
    MetaResult.parsed (Json.obj []) from rfl] at h
  exact MetaResult.noConfusion h

/-- C10 (amended): `generateMemeMetadata` never rejects because of an
unparsable model response — the model of the settled call is a total
function into resolved values.  When the response text is present but is
not valid JSON, it resolves with the fallback
`(title = 创意表情包, description = first 100 characters of the user
prompt)`; when the text is valid JSON, it resolves with the parsed value
as-is (whatever document that is); when the response text is missing, the
substituted `'{}'` parses successfully and it resolves with the parsed
empty object (no title, no description), not with the fallback. -/
theorem generateMemeMetadata_parse_fallback (userPrompt : String) :
    (∀ t : String,
      jsonParse (if t = "" then "\x7b\x7d" else t) = none →
        generateMemeMetadata userPrompt (some t) =
          MetaResult.fallback "创意表情包" (userPrompt.take 100)) ∧
    (∀ (t : String) (v : Json),
      jsonParse (if t = "" then "\x7b\x7d" else t) = some v →
        generateMemeMetadata userPrompt (some t) = MetaResult.parsed v) ∧
    generateMemeMetadata userPrompt none =
      MetaResult.parsed (Json.obj []) := by
  refine ⟨fun t ht => ?_, fun t v hv => ?_, rfl⟩
  · simp only [generateMemeMetadata, ht]
  · simp only [generateMemeMetadata, hv]

/-- Witness for the amended C10: a non-JSON response text takes the
fallback branch, while the valid JSON array `[1,2]` — no flat string
object — resolves with the parsed array, not the fallback. -/
theorem generateMemeMetadata_parse_fallback_witness :
    jsonParse "not json" = none ∧
    generateMemeMetadata "一只猫" (some "not json") =
      MetaResult.fallback "创意表情包" ("一只猫".take 100) ∧
    jsonParse "[1,2]" = some (Json.arr [Json.num "1", Json.num "2"]) ∧
    generateMemeMetadata "一只猫" (some "[1,2]") =
      MetaResult.parsed (Json.arr [Json.num "1", Json.num "2"]) := by
  have h1 : jsonParse (if ("not json" : String) = "" then "\x7b\x7d"
      else "not json") = none := rfl
  have h2 : jsonParse (if ("[1,2]" : String) = "" then "\x7b\x7d"
      else "[1,2]") = some (Json.arr [Json.num "1", Json.num "2"]) := rfl
  exact ⟨rfl, (generateMemeMetadata_parse_fallback "一只猫").1 "not json" h1,
    rfl, (generateMemeMetadata_parse_fallback "一只猫").2.1 "[1,2]"
      (Json.arr [Json.num "1", Json.num "2"]) h2⟩
